import Mathlib

/-!
Shallow embedding of the prediction engine of `led-matrix-sign-web`
(src/src/data/mta-provider.ts together with src/src/data/types.ts and
src/src/utils/constants.ts), and proofs about the claims on its behaviour.

Modelling conventions:
- TypeScript strings are `String`, JSON numbers occurring as times are `Int`
  (JS numbers are floats, but every arithmetic operation performed on them
  here is integer addition/subtraction/comparison on integral inputs).
- The `DayType` string enum is modelled as `String` constants, because the
  decompression fallback `dayTypeMap[code] || (code as DayType)` injects
  arbitrary strings into the field.
- JS objects used as keyed tables (`HistoricalData`) are association lists
  looked up with `find?`; a `Set<string>` is a `List String` used only
  through membership.
- `Date`-derived quantities (`getDay`, hours/minutes/seconds) are threaded
  as explicit parameters: `getPredictions` receives the already classified
  day type and the seconds-since-midnight value.
- Mutation of fields of the `MTAProvider` class instance is explicit state
  passing; a method that mutates returns the new state.
- `fetch`/`await` results in `loadData` are `Except String` parameters: an
  exception thrown at a given await point propagates, leaving exactly the
  assignments made before that point applied.
- `Array.prototype.sort` with comparator `(a, b) => a.time - b.time` is a
  stable sort by `time` (ECMA-262 guarantees sort stability); it is modelled
  by a stable insertion sort on the same key, which produces the identical
  output list.
- `Station` keeps the two fields the engine reads (`stop_id`, `children`);
  the display-only fields (name, coordinates, direction labels, routes) are
  never inspected by the code under verification and are omitted.
-/

namespace DayType

def WEEKDAY : String := "weekday"

def SATURDAY : String := "saturday"

def SUNDAY : String := "sunday"

end DayType

/-- Embeds `HistoricalTrainTime` from types.ts. -/
structure HistoricalTrainTime where
  route_id : String
  direction_id : String
  long_name : String
  departure_time : Int
  trip_id : String
  day_type : String
deriving Repr, DecidableEq

/-- Embeds `TrainTime` from types.ts (the optional `stop_headsign` is never set nor
read by the provider and is omitted). -/
structure TrainTime where
  route_id : String
  direction_id : String
  long_name : String
  time : Int
  display_order : Nat
  trip_id : String
  is_express : Bool
deriving Repr, DecidableEq

/-- Embeds `Station` from types.ts, restricted to the fields the provider reads. -/
structure Station where
  stop_id : String
  children : Option (List String)
deriving Repr, DecidableEq

/-- Embeds `HistoricalData` from types.ts: a string-keyed table of record lists. -/
abbrev HistoricalData := List (String × List HistoricalTrainTime)

/-- One tuple of the compressed format:
`[route_id, direction_id, name_index, departure_time, day_type_short]`. -/
structure CompressedEntry where
  route_id : String
  direction_id : String
  name_index : Nat
  departure_time : Int
  day_type_short : String
deriving Repr, DecidableEq

/-- Embeds `CompressedHistoricalData` from mta-provider.ts. -/
structure CompressedHistoricalData where
  names : List String
  data : List (String × List CompressedEntry)
deriving Repr, DecidableEq

/-- Embeds `MAX_NUM_PREDICTIONS` from constants.ts. -/
def MAX_NUM_PREDICTIONS : Nat := 6

/-- The mutable fields of the `MTAProvider` class instance. -/
structure ProviderState where
  historicalData : Option HistoricalData
  stations : List Station
  childStationIds : List String
  lastSecondTrain : Option TrainTime

namespace MTAProvider

/-- JS object property lookup `table[stopId]`, `undefined` as `none`. -/
def lookupData (data : HistoricalData) (stopId : String) :
    Option (List HistoricalTrainTime) :=
  (List.find? (fun e => e.1 == stopId) data).map (fun e => e.2)

/-- The `dayTypeMap` literal inside `decompressHistoricalData`. -/
def dayTypeMap (code : String) : Option String :=
  if code == "w" then some DayType.WEEKDAY
  else if code == "s" then some DayType.SATURDAY
  else if code == "u" then some DayType.SUNDAY
  else none

/-- Embeds `MTAProvider.decompressHistoricalData`: expands the columnar form; the
name table is indexed (`undefined` for an out-of-range index is modelled as
`""`, never inspected by the engine), `trip_id` is always set to the empty
string, and an unrecognized day code falls through `||` as the raw string. -/
def decompressHistoricalData (compressed : CompressedHistoricalData) :
    HistoricalData :=
  compressed.data.map (fun entry =>
    (entry.1, entry.2.map (fun e =>
      { route_id := e.route_id
        direction_id := e.direction_id
        long_name := (compressed.names.get? e.name_index).getD ""
        departure_time := e.departure_time
        trip_id := ""
        day_type := (dayTypeMap e.day_type_short).getD e.day_type_short })))

/-- Embeds `MTAProvider.buildChildStationSet`: collects every id appearing in some
station's `children` array (a `Set<string>` used only through membership). -/
def buildChildStationSet (stations : List Station) : List String :=
  stations.foldr (fun station acc => (station.children.getD []) ++ acc) []

/-- Embeds `MTAProvider.loadData`: fetches and parses the two documents in order.
`this.historicalData` is assigned before the stations fetch begins, so an
exception thrown while fetching/parsing stations propagates with the new
historical table already applied. Returns the outcome together with the
state of the provider after the call. -/
def loadData (st : ProviderState)
    (histResult : Except String CompressedHistoricalData)
    (stationsResult : Except String (List Station)) :
    Except String Unit × ProviderState :=
  match histResult with
  | .error e => (.error e, st)
  | .ok compressed =>
    let st1 := { st with
      historicalData := some (decompressHistoricalData compressed) }
    match stationsResult with
    | .error e => (.error e, st1)
    | .ok stations =>
      let st2 := { st1 with stations := stations }
      let st3 := { st2 with
        childStationIds := buildChildStationSet stations }
      (.ok (), st3)

/-- Embeds `MTAProvider.getStation`. -/
def getStation (stations : List Station) (stopId : String) : Option Station :=
  stations.find? (fun s => s.stop_id == stopId)

/-- Embeds `MTAProvider.getStations`. -/
def getStations (stations : List Station) (childStationIds : List String) :
    List Station :=
  stations.filter (fun station => !(childStationIds.contains station.stop_id))

/-- Substring check: `haystack.includes(needle)` on the character lists. -/
def startsWithChars : List Char → List Char → Bool
  | [], _ => true
  | _ :: _, [] => false
  | a :: as, b :: bs => a == b && startsWithChars as bs

/-- Whether `sub` occurs as a contiguous run inside `l`. -/
def hasSubChars (sub : List Char) : List Char → Bool
  | [] => startsWithChars sub []
  | b :: bs => startsWithChars sub (b :: bs) || hasSubChars sub bs

/-- Embeds `String.prototype.includes`. -/
def strIncludes (s sub : String) : Bool :=
  hasSubChars sub.toList s.toList

/-- Embeds `MTAProvider.isExpressTrain`. -/
def isExpressTrain (routeId : String) (tripId : String) : Bool :=
  if routeId != "4" && routeId != "6" then false
  else strIncludes tripId "_X" || strIncludes tripId "EXPRESS"

/-- Embeds `MTAProvider.getDayType`, as a function of `date.getDay()`. -/
def getDayType (day : Nat) : String :=
  if day == 0 then DayType.SUNDAY
  else if day == 6 then DayType.SATURDAY
  else DayType.WEEKDAY

/-- Embeds `MTAProvider.getSecondsFromMidnight`, as a function of the local
hour/minute/second components. -/
def getSecondsFromMidnight (hours minutes seconds : Nat) : Int :=
  (hours : Int) * 3600 + (minutes : Int) * 60 + (seconds : Int)

/-- The direction filter of `getPredictions`: a record survives when
`direction` is `null` or `histTime.direction_id === direction.toString()`. -/
def directionMatches (direction : Option Int) (direction_id : String) : Bool :=
  match direction with
  | none => true
  | some d => direction_id == toString d

/-- The naive wait `departure_time - now`, wrapped past midnight:
`if (waitTime < 0) waitTime += 24 * 3600`. -/
def adjustedWait (departure now : Int) : Int :=
  let waitTime := departure - now
  if waitTime < 0 then waitTime + 24 * 3600 else waitTime

/-- The body of the record loop of `getPredictions`: day filter, direction
filter, wait computation with wraparound, horizon/past rejection, express
classification, and construction of the pushed `TrainTime`. -/
def processRecord (histTime : HistoricalTrainTime) (direction : Option Int)
    (currentDayType : String) (nowSeconds : Int) : Option TrainTime :=
  if histTime.day_type != currentDayType then none
  else if !(directionMatches direction histTime.direction_id) then none
  else
    let waitTime := adjustedWait histTime.departure_time nowSeconds
    if waitTime > 3600 then none
    else if waitTime < 0 then none
    else some
      { route_id := histTime.route_id
        direction_id := histTime.direction_id
        long_name := histTime.long_name
        time := waitTime
        display_order := 0
        trip_id := histTime.trip_id
        is_express := isExpressTrain histTime.route_id histTime.trip_id }

/-- The nested collection loops of `getPredictions`: over the resolved
station ids, over that station's records, pushing each surviving record. -/
def collectPredictions (data : HistoricalData) (direction : Option Int)
    (currentDayType : String) (nowSeconds : Int) :
    List String → List TrainTime
  | [] => []
  | stationId :: rest =>
    (match lookupData data stationId with
     | none => []
     | some historicalTimes =>
       historicalTimes.filterMap
         (fun histTime =>
           processRecord histTime direction currentDayType nowSeconds)) ++
    collectPredictions data direction currentDayType nowSeconds rest

/-- Embeds `stationIdsToCheck`: the requested stop followed by its children. An
empty `children` array is truthy in JS, so only a missing field is skipped. -/
def stationIdsToCheck (stations : List Station) (stopId : String) :
    List String :=
  stopId ::
    (match getStation stations stopId with
     | some station => station.children.getD []
     | none => [])

/-- Embeds `orderedInsert` for the stable sort by `time`: the new element is placed
before the first element it compares `≤` to, hence after every earlier
element with an equal key. -/
def orderedInsertT (a : TrainTime) : List TrainTime → List TrainTime
  | [] => [a]
  | b :: l => if a.time ≤ b.time then a :: b :: l else b :: orderedInsertT a l

/-- Embeds `predictions.sort((a, b) => a.time - b.time)`: a stable sort by `time`
(ECMA-262 sort is stable; any stable sort by the same key yields the same
list, here realised as insertion sort). -/
def sortByTime : List TrainTime → List TrainTime
  | [] => []
  | a :: l => orderedInsertT a (sortByTime l)

/-- Embeds `predictions.forEach((p, i) => { p.display_order = i })`, starting the
index at `k`. -/
def assignOrders (k : Nat) : List TrainTime → List TrainTime
  | [] => []
  | p :: rest => { p with display_order := k } :: assignOrders (k + 1) rest

/-- Embeds `MTAProvider.getPredictions`, with the `Date`-derived day type and
seconds-since-midnight passed explicitly. -/
def getPredictions (historicalData : Option HistoricalData)
    (stations : List Station) (stopId : String) (direction : Option Int)
    (currentDayType : String) (currentSecondsFromMidnight : Int) :
    List TrainTime :=
  match historicalData with
  | none => []
  | some data =>
    let predictions := collectPredictions data direction currentDayType
      currentSecondsFromMidnight (stationIdsToCheck stations stopId)
    (assignOrders 0 (sortByTime predictions)).take MAX_NUM_PREDICTIONS

/-- Embeds `getPredictions` restated through the collected (unsorted, unranked)
record list, uniformly in the `historicalData` option. -/
def collectedOf (historicalData : Option HistoricalData)
    (stations : List Station) (stopId : String) (direction : Option Int)
    (currentDayType : String) (currentSecondsFromMidnight : Int) :
    List TrainTime :=
  match historicalData with
  | none => []
  | some data => collectPredictions data direction currentDayType
      currentSecondsFromMidnight (stationIdsToCheck stations stopId)

/-- The linear scan of `getSecondTrain` for the remembered `display_order`,
returning the index of the first match. -/
def findTrainIdx (ord : Nat) : List TrainTime → Option Nat
  | [] => none
  | p :: rest =>
    if p.display_order == ord then some 0
    else (findTrainIdx ord rest).map (· + 1)

/-- Embeds `MTAProvider.getSecondTrain`: takes the current `lastSecondTrain` field
and the prediction list, returns the displayed train (JS `null` as `none`)
together with the new value of `lastSecondTrain`. -/
def getSecondTrain (lastSecondTrain : Option TrainTime)
    (predictions : List TrainTime) : Option TrainTime × Option TrainTime :=
  if predictions.length < 2 then (none, lastSecondTrain)
  else
    match lastSecondTrain with
    | none => (predictions[1]?, predictions[1]?)
    | some last =>
      match findTrainIdx last.display_order predictions with
      | some i =>
        let nextId := if i + 1 ≥ predictions.length then 1 else i + 1
        (predictions[nextId]?, predictions[nextId]?)
      | none => (predictions[1]?, predictions[1]?)

/-- The sequence of calls `getSecondTrain` makes against a fixed prediction
list, starting from the initial (`null`) rotation state; index `k` holds the
result and state of the `k`-th call (0-based). -/
def rotationResults (predictions : List TrainTime) :
    Nat → Option TrainTime × Option TrainTime
  | 0 => getSecondTrain none predictions
  | k + 1 => getSecondTrain (rotationResults predictions k).2 predictions

end MTAProvider

/-- Forgets the rank of a prediction (used to compare prediction contents
independently of assigned display positions). -/
def stripOrder (p : TrainTime) : TrainTime :=
  { p with display_order := 0 }

/-- Ascending order by wait time. -/
def timeSorted (l : List TrainTime) : Prop :=
  List.Pairwise (fun a b => a.time ≤ b.time) l

/-- A prediction list as produced by `getPredictions`: the entry at index
`i` carries `display_order = i`. -/
def Ranked (l : List TrainTime) : Prop :=
  ∀ i (h : i < l.length), (l.get ⟨i, h⟩).display_order = i

/-- Holds when `b` is reachable from `a` by repeatedly following `children` arrays of
the given station list. -/
inductive IsDescendant (stations : List Station) : String → String → Prop
  | child (s : Station) (c : String) : s ∈ stations → c ∈ s.children.getD [] →
      IsDescendant stations s.stop_id c
  | trans (a b c : String) : IsDescendant stations a b →
      IsDescendant stations b c → IsDescendant stations a c

/-- A provider before any successful `loadData` call. -/
def initialProviderState : ProviderState :=
  { historicalData := none, stations := [], childStationIds := [],
    lastSecondTrain := none }

/-- A concrete prediction used in witnesses. -/
def sampleTrain (t : Int) (ord : Nat) : TrainTime :=
  { route_id := "1", direction_id := "0", long_name := "Sample",
    time := t, display_order := ord, trip_id := "", is_express := false }

/-- A concrete ranked prediction list of length 3 used in witnesses. -/
def sampleTrains : List TrainTime :=
  [sampleTrain 60 0, sampleTrain 120 1, sampleTrain 180 2]

/-- A concrete historical record used in witnesses (the §8 scenario). -/
def scenarioRecord : HistoricalTrainTime :=
  { route_id := "6", direction_id := "0", long_name := "Test",
    departure_time := 100, trip_id := "t1_EXPRESS",
    day_type := DayType.WEEKDAY }

/-- The prediction the §8 scenario must produce. -/
def scenarioTrain : TrainTime :=
  { route_id := "6", direction_id := "0", long_name := "Test",
    time := 50, display_order := 0, trip_id := "t1_EXPRESS",
    is_express := true }

/-- A station list containing a self-cycle: station `"A"` lists itself as
its own child. -/
def cyclicStations : List Station :=
  [{ stop_id := "A", children := some ["A"] }]

namespace MTAProvider

lemma mem_orderedInsertT {a x : TrainTime} {l : List TrainTime} :
    a ∈ orderedInsertT x l ↔ a = x ∨ a ∈ l := by
  induction l with
  | nil => simp [orderedInsertT]
  | cons b rest ih =>
    by_cases h : x.time ≤ b.time
    · simp [orderedInsertT, h]
    · simp only [orderedInsertT, if_neg h, List.mem_cons, ih]
      tauto

lemma mem_sortByTime {a : TrainTime} {l : List TrainTime} :
    a ∈ sortByTime l ↔ a ∈ l := by
  induction l with
  | nil => simp [sortByTime]
  | cons b rest ih =>
    simp [sortByTime, mem_orderedInsertT, ih]

lemma length_orderedInsertT (x : TrainTime) (l : List TrainTime) :
    (orderedInsertT x l).length = l.length + 1 := by
  induction l with
  | nil => rfl
  | cons b rest ih =>
    by_cases h : x.time ≤ b.time
    · simp [orderedInsertT, h]
    · simp [orderedInsertT, h, ih]

lemma length_sortByTime (l : List TrainTime) :
    (sortByTime l).length = l.length := by
  induction l with
  | nil => rfl
  | cons b rest ih => simp [sortByTime, length_orderedInsertT, ih]

lemma orderedInsertT_cons_pos {x b : TrainTime} {rest : List TrainTime}
    (h : x.time ≤ b.time) :
    orderedInsertT x (b :: rest) = x :: b :: rest := by
  simp [orderedInsertT, h]

lemma orderedInsertT_cons_neg {x b : TrainTime} {rest : List TrainTime}
    (h : ¬(x.time ≤ b.time)) :
    orderedInsertT x (b :: rest) = b :: orderedInsertT x rest := by
  simp [orderedInsertT, h]

lemma sorted_orderedInsertT {x : TrainTime} {l : List TrainTime}
    (hl : timeSorted l) : timeSorted (orderedInsertT x l) := by
  induction l with
  | nil => simp [orderedInsertT, timeSorted]
  | cons b rest ih =>
    rcases hl with - | ⟨hb, hrest⟩
    by_cases h : x.time ≤ b.time
    · rw [orderedInsertT_cons_pos h]
      refine List.Pairwise.cons ?_ (List.Pairwise.cons hb hrest)
      intro c hc
      rcases List.mem_cons.mp hc with rfl | hc
      · exact h
      · exact le_trans h (hb c hc)
    · rw [orderedInsertT_cons_neg h]
      refine List.Pairwise.cons ?_ (ih hrest)
      intro c hc
      rcases mem_orderedInsertT.mp hc with rfl | hc
      · exact le_of_not_le h
      · exact hb c hc

lemma sorted_sortByTime (l : List TrainTime) : timeSorted (sortByTime l) := by
  induction l with
  | nil => exact List.Pairwise.nil
  | cons b rest ih => exact sorted_orderedInsertT ih

lemma filter_orderedInsertT_eq {x : TrainTime} {t : Int} (hx : x.time = t)
    (l : List TrainTime) :
    (orderedInsertT x l).filter (fun p => p.time == t) =
      x :: l.filter (fun p => p.time == t) := by
  induction l with
  | nil => simp [orderedInsertT, List.filter_cons, hx]
  | cons b rest ih =>
    by_cases h : x.time ≤ b.time
    · rw [orderedInsertT_cons_pos h]
      simp [List.filter_cons, hx]
    · have hbt : ¬(b.time = t) := by
        intro hbt
        exact h (le_of_eq (hx.trans hbt.symm))
      rw [orderedInsertT_cons_neg h]
      simp only [List.filter_cons, ih]
      simp [hbt]

lemma filter_orderedInsertT_ne {x : TrainTime} {t : Int} (hx : ¬(x.time = t))
    (l : List TrainTime) :
    (orderedInsertT x l).filter (fun p => p.time == t) =
      l.filter (fun p => p.time == t) := by
  induction l with
  | nil => simp [orderedInsertT, List.filter_cons, hx]
  | cons b rest ih =>
    by_cases h : x.time ≤ b.time
    · rw [orderedInsertT_cons_pos h]
      simp [List.filter_cons, hx]
    · rw [orderedInsertT_cons_neg h]
      simp only [List.filter_cons, ih]

lemma filter_sortByTime (t : Int) (l : List TrainTime) :
    (sortByTime l).filter (fun p => p.time == t) =
      l.filter (fun p => p.time == t) := by
  induction l with
  | nil => rfl
  | cons b rest ih =>
    by_cases hb : b.time = t
    · rw [sortByTime, filter_orderedInsertT_eq hb, ih, List.filter_cons,
        if_pos (by simpa using hb)]
    · rw [sortByTime, filter_orderedInsertT_ne hb, ih, List.filter_cons,
        if_neg (by simpa using hb)]

lemma length_assignOrders (k : Nat) (l : List TrainTime) :
    (assignOrders k l).length = l.length := by
  induction l generalizing k with
  | nil => rfl
  | cons p rest ih => simp [assignOrders, ih]

lemma map_stripOrder_assignOrders (k : Nat) (l : List TrainTime) :
    (assignOrders k l).map stripOrder = l.map stripOrder := by
  induction l generalizing k with
  | nil => rfl
  | cons p rest ih => simp [assignOrders, ih, stripOrder]

lemma get_assignOrders (k : Nat) (l : List TrainTime) (i : Nat)
    (h : i < (assignOrders k l).length) (h2 : i < l.length) :
    (assignOrders k l).get ⟨i, h⟩ =
      { l.get ⟨i, h2⟩ with display_order := k + i } := by
  induction l generalizing k i with
  | nil => exact absurd h2 (Nat.not_lt_zero i)
  | cons p rest ih =>
    cases i with
    | zero => rfl
    | succ j =>
      have hj : j < rest.length := Nat.lt_of_succ_lt_succ h2
      have hj2 : j < (assignOrders (k + 1) rest).length := by
        rw [length_assignOrders]; exact hj
      have := ih (k + 1) j hj2 hj
      simp only [assignOrders, List.get_cons_succ, this]
      congr 1
      omega

lemma mem_assignOrders_strip {b : TrainTime} {k : Nat} {l : List TrainTime}
    (hb : b ∈ assignOrders k l) : ∃ a ∈ l, stripOrder b = stripOrder a := by
  have : stripOrder b ∈ (assignOrders k l).map stripOrder :=
    List.mem_map_of_mem stripOrder hb
  rw [map_stripOrder_assignOrders] at this
  rcases List.mem_map.mp this with ⟨a, ha, hab⟩
  exact ⟨a, ha, hab.symm⟩

lemma stripOrder_time (p : TrainTime) : (stripOrder p).time = p.time := rfl

lemma timeSorted_map_stripOrder {l : List TrainTime} :
    timeSorted (l.map stripOrder) ↔ timeSorted l := by
  unfold timeSorted
  rw [List.pairwise_map]
  rfl

lemma sorted_assignOrders {k : Nat} {l : List TrainTime}
    (hl : timeSorted l) : timeSorted (assignOrders k l) := by
  rw [← timeSorted_map_stripOrder, map_stripOrder_assignOrders,
    timeSorted_map_stripOrder]
  exact hl

lemma timeSorted_take {l : List TrainTime} (n : Nat) (hl : timeSorted l) :
    timeSorted (l.take n) := by
  exact List.Pairwise.sublist (List.take_sublist n l) hl

lemma getPredictions_eq (historicalData : Option HistoricalData)
    (stations : List Station) (stopId : String) (direction : Option Int)
    (currentDayType : String) (currentSecondsFromMidnight : Int) :
    getPredictions historicalData stations stopId direction currentDayType
        currentSecondsFromMidnight =
      (assignOrders 0 (sortByTime (collectedOf historicalData stations stopId
        direction currentDayType currentSecondsFromMidnight))).take
        MAX_NUM_PREDICTIONS := by
  cases historicalData with
  | none => rfl
  | some data => rfl

lemma mem_collectPredictions {data : HistoricalData} {direction : Option Int}
    {day : String} {now : Int} {ids : List String} {a : TrainTime}
    (ha : a ∈ collectPredictions data direction day now ids) :
    ∃ sid ∈ ids, ∃ recs, lookupData data sid = some recs ∧
      ∃ ht ∈ recs, processRecord ht direction day now = some a := by
  induction ids with
  | nil => exact absurd ha (List.not_mem_nil a)
  | cons sid rest ih =>
    rw [collectPredictions] at ha
    rcases List.mem_append.mp ha with hleft | hright
    · cases hfind : lookupData data sid with
      | none => rw [hfind] at hleft; exact absurd hleft (List.not_mem_nil a)
      | some recs =>
        rw [hfind] at hleft
        rcases List.mem_filterMap.mp hleft with ⟨ht, hht, hproc⟩
        exact ⟨sid, List.mem_cons_self sid rest, recs, hfind, ht, hht, hproc⟩
    · rcases ih hright with ⟨s, hs, recs, hrecs, ht, hht, hproc⟩
      exact ⟨s, List.mem_cons_of_mem sid hs, recs, hrecs, ht, hht, hproc⟩

lemma getPredictions_mem_origin {historicalData : Option HistoricalData}
    {stations : List Station} {stopId : String} {direction : Option Int}
    {day : String} {now : Int} {p : TrainTime}
    (hp : p ∈ getPredictions historicalData stations stopId direction day
      now) :
    ∃ a ∈ collectedOf historicalData stations stopId direction day now,
      stripOrder p = stripOrder a := by
  rw [getPredictions_eq] at hp
  have hp2 := List.take_subset MAX_NUM_PREDICTIONS _ hp
  rcases mem_assignOrders_strip hp2 with ⟨a, ha, hpa⟩
  exact ⟨a, mem_sortByTime.mp ha, hpa⟩

lemma processRecord_fields {ht : HistoricalTrainTime}
    {direction : Option Int} {day : String} {now : Int} {a : TrainTime}
    (h : processRecord ht direction day now = some a) :
    a.route_id = ht.route_id ∧ a.trip_id = ht.trip_id ∧
      a.display_order = 0 ∧
      a.is_express = isExpressTrain ht.route_id ht.trip_id := by
  unfold processRecord at h
  simp only [] at h
  split at h
  · exact absurd h (by simp)
  · split at h
    · exact absurd h (by simp)
    · split at h
      · exact absurd h (by simp)
      · split at h
        · exact absurd h (by simp)
        · cases h
          exact ⟨rfl, rfl, rfl, rfl⟩

lemma stripOrder_eq_self {a : TrainTime} (h : a.display_order = 0) :
    stripOrder a = a := by
  cases a
  simp only [stripOrder]
  simp_all

lemma findTrainIdx_lt {ord : Nat} {l : List TrainTime} {i : Nat}
    (h : findTrainIdx ord l = some i) : i < l.length := by
  induction l generalizing i with
  | nil => exact absurd h (by simp [findTrainIdx])
  | cons p rest ih =>
    rw [findTrainIdx] at h
    by_cases hp : p.display_order == ord
    · rw [if_pos hp] at h
      cases h
      simp
    · rw [if_neg hp] at h
      cases hfind : findTrainIdx ord rest with
      | none => rw [hfind] at h; exact absurd h (by simp)
      | some j =>
        rw [hfind] at h
        cases h
        have := ih hfind
        simp only [List.length_cons]
        omega

lemma findTrainIdx_ranked_aux {l : List TrainTime} {off r : Nat}
    (h : ∀ i (hi : i < l.length), (l.get ⟨i, hi⟩).display_order = off + i) :
    findTrainIdx r l =
      if off ≤ r ∧ r < off + l.length then some (r - off) else none := by
  induction l generalizing off with
  | nil =>
    rw [findTrainIdx, if_neg]
    simp only [List.length_nil]
    omega
  | cons p rest ih =>
    have hp : p.display_order = off := by
      have h0 : p.display_order = off + 0 := h 0 (by simp)
      omega
    rw [findTrainIdx]
    by_cases hro : r = off
    · rw [if_pos (by simp [hp, hro]),
        if_pos (by simp only [List.length_cons]; omega)]
      simp [hro]
    · rw [if_neg (by simp [hp]; omega)]
      have hrest : ∀ i (hi : i < rest.length),
          (rest.get ⟨i, hi⟩).display_order = (off + 1) + i := by
        intro i hi
        have hs : (rest.get ⟨i, hi⟩).display_order = off + (i + 1) :=
          h (i + 1) (by simpa using Nat.succ_lt_succ hi)
        omega
      rw [ih hrest]
      by_cases hc : off + 1 ≤ r ∧ r < off + 1 + rest.length
      · rw [if_pos hc, if_pos (by simp only [List.length_cons]; omega)]
        have harith : r - (off + 1) + 1 = r - off := by omega
        simp [harith]
      · rw [if_neg hc, if_neg (by simp only [List.length_cons]; omega)]
        rfl

lemma findTrainIdx_ranked {l : List TrainTime} {r : Nat} (hr : Ranked l)
    (hlt : r < l.length) :
    findTrainIdx r l = some r := by
  have haux : findTrainIdx r l =
      if 0 ≤ r ∧ r < 0 + l.length then some (r - 0) else none :=
    findTrainIdx_ranked_aux (by intro i hi; simpa using hr i hi)
  rw [haux, if_pos (by omega)]
  simp

lemma succ_mod_formula (k m : Nat) (hm : 0 < m) :
    (k + 1) % m = if k % m + 1 = m then 0 else k % m + 1 := by
  have hdm : k / m * m + k % m = k := Nat.div_add_mod' k m
  have hrw : k + 1 = (k % m + 1) + (k / m) * m := by omega
  rw [hrw, Nat.add_mul_mod_self_right]
  by_cases hc : k % m + 1 = m
  · rw [if_pos hc, hc, Nat.mod_self]
  · have hlt : k % m < m := Nat.mod_lt k hm
    rw [if_neg hc, Nat.mod_eq_of_lt (by omega)]

lemma getSecondTrain_of_ranked_state {preds : List TrainTime} {r : Nat}
    (hr : Ranked preds) (h2 : 2 ≤ preds.length) (hrlt : r < preds.length) :
    getSecondTrain (some (preds.get ⟨r, hrlt⟩)) preds =
      (preds[(if r + 1 ≥ preds.length then 1 else r + 1)]?,
       preds[(if r + 1 ≥ preds.length then 1 else r + 1)]?) := by
  rw [getSecondTrain, if_neg (by omega)]
  rw [hr r hrlt, findTrainIdx_ranked hr hrlt]

/-- The closed form of the rotation: starting from the empty rotation state,
against a fixed ranked list of length `≥ 2`, call `k` returns (and stores)
the entry at index `1 + k % (length - 1)`. -/
lemma rotationResults_formula {preds : List TrainTime} (hr : Ranked preds)
    (h2 : 2 ≤ preds.length) (k : Nat) :
    rotationResults preds k =
      (preds[(1 + k % (preds.length - 1))]?,
       preds[(1 + k % (preds.length - 1))]?) := by
  have hm : 0 < preds.length - 1 := by omega
  induction k with
  | zero =>
    rw [rotationResults, getSecondTrain, if_neg (by omega)]
    simp [Nat.zero_mod]
  | succ k ih =>
    have hmod : k % (preds.length - 1) < preds.length - 1 :=
      Nat.mod_lt k hm
    have hidx : 1 + k % (preds.length - 1) < preds.length := by omega
    rw [rotationResults, ih]
    rw [List.getElem?_eq_getElem hidx]
    have hget : preds[(1 + k % (preds.length - 1))] =
        preds.get ⟨1 + k % (preds.length - 1), hidx⟩ := rfl
    rw [hget, getSecondTrain_of_ranked_state hr h2 hidx]
    have harith : (if 1 + k % (preds.length - 1) + 1 ≥ preds.length then 1
        else 1 + k % (preds.length - 1) + 1) =
        1 + (k + 1) % (preds.length - 1) := by
      rw [succ_mod_formula k (preds.length - 1) hm]
      by_cases hc : k % (preds.length - 1) + 1 = preds.length - 1
      · rw [if_pos (by omega), if_pos hc]
      · rw [if_neg (by omega), if_neg hc]
        omega
    rw [harith]

lemma lookupData_entry {d : HistoricalData} {sid : String}
    {recs : List HistoricalTrainTime} (h : lookupData d sid = some recs) :
    ∃ ent ∈ d, ent.2 = recs := by
  rw [lookupData] at h
  cases hf : List.find? (fun e => e.1 == sid) d with
  | none => rw [hf] at h; exact absurd h (by simp)
  | some ent =>
    rw [hf] at h
    refine ⟨ent, List.mem_of_find?_eq_some hf, ?_⟩
    simpa using h

lemma decompress_entry_trip {c : CompressedHistoricalData}
    {ent : String × List HistoricalTrainTime}
    (hent : ent ∈ decompressHistoricalData c) :
    ∀ ht ∈ ent.2, ht.trip_id = "" := by
  rcases List.mem_map.mp hent with ⟨orig, horig, hconv⟩
  intro ht hht
  rw [← hconv] at hht
  rcases List.mem_map.mp hht with ⟨ce, hce, hce2⟩
  rw [← hce2]

lemma trip_id_decompress {c : CompressedHistoricalData} {sid : String}
    {recs : List HistoricalTrainTime}
    (h : lookupData (decompressHistoricalData c) sid = some recs) :
    ∀ ht ∈ recs, ht.trip_id = "" := by
  rcases lookupData_entry h with ⟨ent, hent, hrecs⟩
  rw [← hrecs]
  exact decompress_entry_trip hent

lemma isExpressTrain_empty (r : String) : isExpressTrain r "" = false := by
  unfold isExpressTrain
  split
  · rfl
  · decide

lemma getSecondTrain_none_state {preds : List TrainTime}
    (h2 : ¬(preds.length < 2)) :
    getSecondTrain none preds = (preds[1]?, preds[1]?) := by
  rw [getSecondTrain, if_neg h2]

lemma getSecondTrain_not_found {preds : List TrainTime} {last : TrainTime}
    (h2 : ¬(preds.length < 2))
    (hf : findTrainIdx last.display_order preds = none) :
    getSecondTrain (some last) preds = (preds[1]?, preds[1]?) := by
  rw [getSecondTrain, if_neg h2]
  simp only [hf]

lemma getSecondTrain_found {preds : List TrainTime} {last : TrainTime}
    {i : Nat} (h2 : ¬(preds.length < 2))
    (hf : findTrainIdx last.display_order preds = some i) :
    getSecondTrain (some last) preds =
      (preds[(if i + 1 ≥ preds.length then 1 else i + 1)]?,
       preds[(if i + 1 ≥ preds.length then 1 else i + 1)]?) := by
  rw [getSecondTrain, if_neg h2]
  simp only [hf]

lemma getElem?_display {preds : List TrainTime} (hr : Ranked preds) {j : Nat}
    (hj : j < preds.length) {p : TrainTime} (hp : preds[j]? = some p) :
    p.display_order = j := by
  rw [List.getElem?_eq_getElem hj] at hp
  have hpe : preds.get ⟨j, hj⟩ = p := Option.some.inj hp
  rw [← hpe]
  exact hr j hj

lemma get_congr {l l2 : List TrainTime} (e : l = l2) (i : Nat)
    (h : i < l.length) (h2 : i < l2.length) :
    l.get ⟨i, h⟩ = l2.get ⟨i, h2⟩ := by
  subst e
  rfl

lemma ranks_of_take_assign (s : List TrainTime) (n : Nat) :
    ∀ i (h : i < ((assignOrders 0 s).take n).length),
      (((assignOrders 0 s).take n).get ⟨i, h⟩).display_order = i := by
  intro i h
  have h1 : i < (assignOrders 0 s).length := by
    rw [List.length_take] at h
    omega
  have h2 : i < s.length := by
    rw [length_assignOrders] at h1
    exact h1
  have hget : ((assignOrders 0 s).take n).get ⟨i, h⟩ =
      (assignOrders 0 s).get ⟨i, h1⟩ := by
    simp [List.getElem_take]
  rw [hget, get_assignOrders 0 s i h1 h2]
  simp

end MTAProvider

open MTAProvider

/-- C1: a departure record that passes the day-type and direction filters of
`getPredictions` has its wait computed as `departure_seconds - now_seconds`
with `86400` added exactly when the naive difference is negative, and it is
turned into a prediction if and only if the adjusted wait lies in
`[0, 3600]`. -/
theorem claim1_wait_window (ht : HistoricalTrainTime) (direction : Option Int)
    (day : String) (now : Int) (hday : ht.day_type = day)
    (hdir : directionMatches direction ht.direction_id = true) :
    (ht.departure_time - now < 0 →
      adjustedWait ht.departure_time now = ht.departure_time - now + 86400)
    ∧ (0 ≤ ht.departure_time - now →
      adjustedWait ht.departure_time now = ht.departure_time - now)
    ∧ (0 ≤ adjustedWait ht.departure_time now ∧
        adjustedWait ht.departure_time now ≤ 3600 →
      processRecord ht direction day now = some
        { route_id := ht.route_id, direction_id := ht.direction_id,
          long_name := ht.long_name,
          time := adjustedWait ht.departure_time now,
          display_order := 0, trip_id := ht.trip_id,
          is_express := isExpressTrain ht.route_id ht.trip_id })
    ∧ (¬(0 ≤ adjustedWait ht.departure_time now ∧
        adjustedWait ht.departure_time now ≤ 3600) →
      processRecord ht direction day now = none) := by
  have ha : adjustedWait ht.departure_time now =
      if ht.departure_time - now < 0 then ht.departure_time - now + 24 * 3600
      else ht.departure_time - now := rfl
  refine ⟨?_, ?_, ?_, ?_⟩
  · intro h
    rw [ha, if_pos h]
    norm_num
  · intro h
    rw [ha, if_neg (by omega)]
  · intro hw
    unfold processRecord
    rw [if_neg (by simp [hday]), if_neg (by simp [hdir])]
    show (if adjustedWait ht.departure_time now > 3600 then none
      else if adjustedWait ht.departure_time now < 0 then none
      else some _) = _
    rw [if_neg (by omega), if_neg (by omega)]
  · intro hw
    unfold processRecord
    rw [if_neg (by simp [hday]), if_neg (by simp [hdir])]
    show (if adjustedWait ht.departure_time now > 3600 then none
      else if adjustedWait ht.departure_time now < 0 then none
      else some _) = _
    by_cases hgt : adjustedWait ht.departure_time now > 3600
    · rw [if_pos hgt]
    · rw [if_neg hgt, if_pos (by omega)]

/-- C1 witness: the boundary inputs — `departure_seconds = 0` at
`now = 86399` wraps to wait `1` and is included, wait `3600` is included,
wait `3601` is excluded. -/
theorem claim1_witness :
    processRecord
        { route_id := "6", direction_id := "0", long_name := "T",
          departure_time := 0, trip_id := "t", day_type := "weekday" }
        none "weekday" 86399 =
      some { route_id := "6", direction_id := "0", long_name := "T",
             time := 1, display_order := 0, trip_id := "t",
             is_express := false }
    ∧ processRecord
        { route_id := "6", direction_id := "0", long_name := "T",
          departure_time := 3600, trip_id := "t", day_type := "weekday" }
        none "weekday" 0 =
      some { route_id := "6", direction_id := "0", long_name := "T",
             time := 3600, display_order := 0, trip_id := "t",
             is_express := false }
    ∧ processRecord
        { route_id := "6", direction_id := "0", long_name := "T",
          departure_time := 3601, trip_id := "t", day_type := "weekday" }
        none "weekday" 0 = none := by
  refine ⟨?_, ?_, ?_⟩
  · exact (claim1_wait_window
      { route_id := "6", direction_id := "0", long_name := "T",
        departure_time := 0, trip_id := "t", day_type := "weekday" }
      none "weekday" 86399 rfl rfl).2.2.1 (by decide)
  · exact (claim1_wait_window
      { route_id := "6", direction_id := "0", long_name := "T",
        departure_time := 3600, trip_id := "t", day_type := "weekday" }
      none "weekday" 0 rfl rfl).2.2.1 (by decide)
  · exact (claim1_wait_window
      { route_id := "6", direction_id := "0", long_name := "T",
        departure_time := 3601, trip_id := "t", day_type := "weekday" }
      none "weekday" 0 rfl rfl).2.2.2 (by decide)

/-- C7: a prediction is express exactly when the route is `"4"` or `"6"`
and the trip id contains `"_X"` or `"EXPRESS"`; the §8 scenario (route 6,
departure 100, trip `"t1_EXPRESS"` at `now = 50` on a weekday) yields
exactly one prediction with wait 50, rank 0 and `is_express = true`. -/
theorem claim7_express_classification :
    (∀ routeId tripId, isExpressTrain routeId tripId =
      ((routeId == "4" || routeId == "6") &&
        (strIncludes tripId "_X" || strIncludes tripId "EXPRESS")))
    ∧ getPredictions (some [("S", [scenarioRecord])]) [] "S" none
        DayType.WEEKDAY 50 = [scenarioTrain] := by
  constructor
  · intro routeId tripId
    unfold isExpressTrain
    cases h4 : routeId == "4" <;> cases h6 : routeId == "6" <;> simp_all
  · decide

/-- C8: with fewer than two predictions, `getSecondTrain` returns `null`
and leaves the remembered `lastSecondTrain` untouched. -/
theorem claim8_degenerate_frame (lastSecondTrain : Option TrainTime)
    (predictions : List TrainTime) (h : predictions.length < 2) :
    getSecondTrain lastSecondTrain predictions = (none, lastSecondTrain) := by
  unfold getSecondTrain
  rw [if_pos h]

/-- C8 witness: an empty prediction list with a non-empty rotation memory. -/
theorem claim8_witness :
    getSecondTrain (some (sampleTrain 60 0)) [] =
      (none, some (sampleTrain 60 0)) :=
  claim8_degenerate_frame (some (sampleTrain 60 0)) [] (by decide)

/-- C3: on a ranked prediction list of length at least 2, whatever the
rotation state (empty, remembering a present rank, or remembering an absent
rank), `getSecondTrain` never returns the entry with rank 0. -/
theorem claim3_never_rank_zero (preds : List TrainTime)
    (st : Option TrainTime) (h2 : 2 ≤ preds.length) (hr : Ranked preds) :
    ∀ p, (getSecondTrain st preds).1 = some p → p.display_order ≠ 0 := by
  intro p hp
  have hlen : ¬(preds.length < 2) := by omega
  have h1 : 1 < preds.length := by omega
  cases st with
  | none =>
    rw [getSecondTrain_none_state hlen] at hp
    have := getElem?_display hr h1 hp
    omega
  | some last =>
    cases hf : findTrainIdx last.display_order preds with
    | none =>
      rw [getSecondTrain_not_found hlen hf] at hp
      have := getElem?_display hr h1 hp
      omega
    | some i =>
      rw [getSecondTrain_found hlen hf] at hp
      have hi := findTrainIdx_lt hf
      by_cases hc : i + 1 ≥ preds.length
      · rw [if_pos hc] at hp
        have := getElem?_display hr h1 hp
        omega
      · rw [if_neg hc] at hp
        have := getElem?_display hr (by omega) hp
        omega

/-- C3 witness: a ranked two-element list with a stale remembered rank. -/
theorem claim3_witness :
    (sampleTrain 120 1).display_order ≠ 0 :=
  claim3_never_rank_zero [sampleTrain 60 0, sampleTrain 120 1]
    (some (sampleTrain 0 7)) (by decide)
    (by
      intro i h
      have h3 : i < 2 := h
      interval_cases i <;> rfl)
    (sampleTrain 120 1) rfl

/-- C2: against a fixed ranked prediction list of length `N ≥ 2`, the `k`-th
call of `getSecondTrain` (starting from the empty rotation state) returns
the entry at index `1 + k % (N - 1)` — the ranks cycle through
`1, 2, …, N-1, 1, 2, …`, and within any window of `N - 1` consecutive calls
no rank repeats. -/
theorem claim2_rotation_cycle (preds : List TrainTime)
    (h2 : 2 ≤ preds.length) (hr : Ranked preds) :
    (∀ k, (rotationResults preds k).1 =
      preds[(1 + k % (preds.length - 1))]?)
    ∧ (∀ k, ((rotationResults preds k).1.map
        (fun p => p.display_order)) = some (1 + k % (preds.length - 1)))
    ∧ (∀ m j1 j2, j1 < preds.length - 1 → j2 < preds.length - 1 →
        (rotationResults preds (m * (preds.length - 1) + j1)).1 =
          (rotationResults preds (m * (preds.length - 1) + j2)).1 →
        j1 = j2) := by
  have hm : 0 < preds.length - 1 := by omega
  have hidx : ∀ k, 1 + k % (preds.length - 1) < preds.length := by
    intro k
    have := Nat.mod_lt k hm
    omega
  have hfst : ∀ k, (rotationResults preds k).1 =
      preds[(1 + k % (preds.length - 1))]? := by
    intro k
    rw [rotationResults_formula hr h2 k]
  have hord : ∀ k, ((rotationResults preds k).1.map
      (fun p => p.display_order)) = some (1 + k % (preds.length - 1)) := by
    intro k
    rw [hfst k, List.getElem?_eq_getElem (hidx k)]
    have hget := hr (1 + k % (preds.length - 1)) (hidx k)
    simpa using hget
  refine ⟨hfst, hord, ?_⟩
  intro m j1 j2 hj1 hj2 heq
  have e1 := hord (m * (preds.length - 1) + j1)
  have e2 := hord (m * (preds.length - 1) + j2)
  rw [heq] at e1
  rw [e2] at e1
  have r1 : (m * (preds.length - 1) + j1) % (preds.length - 1) = j1 := by
    rw [Nat.mul_comm, Nat.mul_add_mod]
    exact Nat.mod_eq_of_lt hj1
  have r2 : (m * (preds.length - 1) + j2) % (preds.length - 1) = j2 := by
    rw [Nat.mul_comm, Nat.mul_add_mod]
    exact Nat.mod_eq_of_lt hj2
  rw [r1, r2] at e1
  exact Nat.add_left_cancel (Option.some.inj e1).symm

/-- C2 witness: on the concrete three-element ranked list the calls return
ranks `1, 2, 1, 2, …`. -/
theorem claim2_witness :
    (rotationResults sampleTrains 0).1 = sampleTrains[1]?
    ∧ (rotationResults sampleTrains 1).1 = sampleTrains[2]?
    ∧ (rotationResults sampleTrains 2).1 = sampleTrains[1]? := by
  have hr : Ranked sampleTrains := by
    intro i h
    have h3 : i < 3 := h
    interval_cases i <;> rfl
  have hmain := (claim2_rotation_cycle sampleTrains (by decide) hr).1
  exact ⟨hmain 0, hmain 1, hmain 2⟩

/-- C4 (amended): `loadData` is not all-or-nothing. A failure fetching or
parsing the historical document leaves the provider unchanged, but a
failure at the stations stage leaves the freshly decompressed historical
table already applied while `stations` and `childStationIds` keep their old
values; only a fully successful load applies all three fields. -/
theorem claim4_load_staged (st : ProviderState) (e : String)
    (comp : CompressedHistoricalData)
    (stationsResult : Except String (List Station))
    (stations : List Station) :
    loadData st (Except.error e) stationsResult = (Except.error e, st)
    ∧ loadData st (Except.ok comp) (Except.error e) =
      (Except.error e,
        { st with
            historicalData := some (decompressHistoricalData comp) })
    ∧ loadData st (Except.ok comp) (Except.ok stations) =
      (Except.ok (),
        { st with
            historicalData := some (decompressHistoricalData comp),
            stations := stations,
            childStationIds := buildChildStationSet stations }) :=
  ⟨rfl, rfl, rfl⟩

/-- C4 counterexample: starting from a fresh provider, a load whose
stations fetch fails still reports failure, yet the historical table has
been replaced while the stations table was left alone — partially applied
state is retained, contradicting the all-or-nothing claim. -/
theorem claim4_counterexample :
    (loadData initialProviderState
        (Except.ok { names := [], data := [("S", [])] })
        (Except.error "stations fetch failed")).1 =
      Except.error "stations fetch failed"
    ∧ (loadData initialProviderState
        (Except.ok { names := [], data := [("S", [])] })
        (Except.error "stations fetch failed")).2.historicalData ≠
      initialProviderState.historicalData
    ∧ (loadData initialProviderState
        (Except.ok { names := [], data := [("S", [])] })
        (Except.error "stations fetch failed")).2.stations =
      initialProviderState.stations := by
  refine ⟨rfl, ?_, rfl⟩
  simp [loadData, initialProviderState, decompressHistoricalData]

/-- C5 (amended): `loadData` performs no topology validation at all — with
both documents parsed successfully it always succeeds, even when the
station graph contains a cycle (a station that is its own descendant). -/
theorem claim5_no_cycle_validation (st : ProviderState)
    (comp : CompressedHistoricalData) (stations : List Station)
    (_hcyc : ∃ x, IsDescendant stations x x) :
    (loadData st (Except.ok comp) (Except.ok stations)).1 =
      Except.ok () := rfl

/-- C5 witness: the one-station topology in which `"A"` lists itself as a
child loads successfully. -/
theorem claim5_witness :
    (loadData initialProviderState
        (Except.ok { names := [], data := [] })
        (Except.ok cyclicStations)).1 = Except.ok () :=
  claim5_no_cycle_validation initialProviderState
    { names := [], data := [] } cyclicStations
    ⟨"A", IsDescendant.child
      { stop_id := "A", children := some ["A"] } "A"
      (by simp [cyclicStations]) (by simp)⟩

/-- C5 counterexample: the claim says a cyclic topology must fail fast at
load time; here is a topology with a self-cycle that `loadData` accepts
silently. -/
theorem claim5_counterexample :
    IsDescendant cyclicStations "A" "A"
    ∧ (loadData initialProviderState
        (Except.ok { names := [], data := [] })
        (Except.ok cyclicStations)).1 = Except.ok () ∧
      (loadData initialProviderState
        (Except.ok { names := [], data := [] })
        (Except.ok cyclicStations)).2.stations = cyclicStations := by
  refine ⟨?_, rfl, rfl⟩
  exact IsDescendant.child { stop_id := "A", children := some ["A"] } "A"
    (by simp [cyclicStations]) (by simp)

/-- C6: the list `getPredictions` returns is sorted ascending by wait time,
holds at most 6 entries, assigns each entry a rank equal to its position,
equals (up to the assigned ranks) the capacity-truncated stable sort of the
collected records, and that sort is stable — records with equal wait keep
their collection order. -/
theorem claim6_sorted_ranked_truncated
    (historicalData : Option HistoricalData) (stations : List Station)
    (stopId : String) (direction : Option Int) (day : String) (now : Int) :
    timeSorted (getPredictions historicalData stations stopId direction day
      now)
    ∧ (getPredictions historicalData stations stopId direction day
        now).length ≤ MAX_NUM_PREDICTIONS
    ∧ (∀ i (h : i < (getPredictions historicalData stations stopId direction
        day now).length),
        ((getPredictions historicalData stations stopId direction day
          now).get ⟨i, h⟩).display_order = i)
    ∧ (getPredictions historicalData stations stopId direction day
        now).map stripOrder =
      ((sortByTime (collectedOf historicalData stations stopId direction day
        now)).take MAX_NUM_PREDICTIONS).map stripOrder
    ∧ (∀ t : Int,
        (sortByTime (collectedOf historicalData stations stopId direction
          day now)).filter (fun p => p.time == t) =
        (collectedOf historicalData stations stopId direction day
          now).filter (fun p => p.time == t)) := by
  refine ⟨?_, ?_, ?_, ?_, ?_⟩
  · rw [getPredictions_eq]
    exact timeSorted_take _ (sorted_assignOrders (sorted_sortByTime _))
  · rw [getPredictions_eq]
    simp only [List.length_take]
    exact Nat.min_le_left _ _
  · intro i h
    have heq := getPredictions_eq historicalData stations stopId direction
      day now
    have h2 : i < ((assignOrders 0 (sortByTime (collectedOf historicalData
        stations stopId direction day now))).take
          MAX_NUM_PREDICTIONS).length := by
      rw [← heq]
      exact h
    rw [get_congr heq i h h2]
    exact ranks_of_take_assign _ _ i h2
  · rw [getPredictions_eq, List.map_take, map_stripOrder_assignOrders,
      List.map_take]
  · intro t
    exact filter_sortByTime t _

/-- C9: `getPredictions` is total — an unknown stop id (no historical
records and no station entry) yields the empty list; in general the result
is drawn from the records of the requested stop and its children
(`stationIdsToCheck`), merged into a single sorted list of at most 6
entries. -/
theorem claim9_total_merge :
    (∀ (data : HistoricalData) (stations : List Station) (stopId : String)
        (direction : Option Int) (day : String) (now : Int),
      lookupData data stopId = none →
      getStation stations stopId = none →
      getPredictions (some data) stations stopId direction day now = [])
    ∧ (∀ (historicalData : Option HistoricalData) (stations : List Station)
        (stopId : String) (direction : Option Int) (day : String)
        (now : Int),
      timeSorted (getPredictions historicalData stations stopId direction
        day now) ∧
      (getPredictions historicalData stations stopId direction day
        now).length ≤ MAX_NUM_PREDICTIONS)
    ∧ (∀ (data : HistoricalData) (stations : List Station) (stopId : String)
        (direction : Option Int) (day : String) (now : Int)
        (p : TrainTime),
      p ∈ getPredictions (some data) stations stopId direction day now →
      ∃ sid ∈ stationIdsToCheck stations stopId,
        ∃ recs, lookupData data sid = some recs ∧
          ∃ ht ∈ recs,
            processRecord ht direction day now = some (stripOrder p)) := by
  refine ⟨?_, ?_, ?_⟩
  · intro data stations stopId direction day now hlook hstat
    have hids : stationIdsToCheck stations stopId = [stopId] := by
      rw [stationIdsToCheck, hstat]
    have hcol : collectedOf (some data) stations stopId direction day
        now = [] := by
      show collectPredictions data direction day now
        (stationIdsToCheck stations stopId) = []
      rw [hids, collectPredictions, hlook]
      rfl
    rw [getPredictions_eq, hcol]
    rfl
  · intro historicalData stations stopId direction day now
    constructor
    · rw [getPredictions_eq]
      exact timeSorted_take _ (sorted_assignOrders (sorted_sortByTime _))
    · rw [getPredictions_eq]
      simp only [List.length_take]
      exact Nat.min_le_left _ _
  · intro data stations stopId direction day now p hp
    rcases getPredictions_mem_origin hp with ⟨a, ha, hpa⟩
    have ha2 : a ∈ collectPredictions data direction day now
        (stationIdsToCheck stations stopId) := ha
    rcases mem_collectPredictions ha2 with
      ⟨sid, hsid, recs, hrecs, ht, hht, hproc⟩
    refine ⟨sid, hsid, recs, hrecs, ht, hht, ?_⟩
    have h0 : a.display_order = 0 := (processRecord_fields hproc).2.2.1
    rw [hpa, stripOrder_eq_self h0]
    exact hproc

/-- C9 witness: a stop id absent from both tables yields `[]`, and the §8
scenario prediction originates from a record of the resolved stop set. -/
theorem claim9_witness :
    getPredictions (some []) [] "Z" none "weekday" 0 = []
    ∧ ∃ sid ∈ stationIdsToCheck ([] : List Station) "S",
        ∃ recs, lookupData [("S", [scenarioRecord])] sid = some recs ∧
          ∃ ht ∈ recs, processRecord ht none DayType.WEEKDAY 50 =
            some (stripOrder scenarioTrain) := by
  constructor
  · exact claim9_total_merge.1 [] [] "Z" none "weekday" 0 rfl rfl
  · exact claim9_total_merge.2.2 [("S", [scenarioRecord])] [] "S" none
      DayType.WEEKDAY 50 scenarioTrain (by decide)

/-- C10: every record produced by the compressed-format decompression has
an empty `trip_id`, and consequently every prediction computed from a
decompressed dataset has `is_express = false` — express status is never
observable for compressed-loaded data. -/
theorem claim10_compressed_never_express :
    (∀ (c : CompressedHistoricalData) (sid : String)
        (recs : List HistoricalTrainTime),
      lookupData (decompressHistoricalData c) sid = some recs →
      ∀ ht ∈ recs, ht.trip_id = "")
    ∧ (∀ (c : CompressedHistoricalData) (stations : List Station)
        (stopId : String) (direction : Option Int) (day : String)
        (now : Int) (p : TrainTime),
      p ∈ getPredictions (some (decompressHistoricalData c)) stations
          stopId direction day now →
      p.is_express = false) := by
  constructor
  · intro c sid recs h
    exact trip_id_decompress h
  · intro c stations stopId direction day now p hp
    rcases getPredictions_mem_origin hp with ⟨a, ha, hpa⟩
    have ha2 : a ∈ collectPredictions (decompressHistoricalData c)
        direction day now (stationIdsToCheck stations stopId) := ha
    rcases mem_collectPredictions ha2 with
      ⟨sid, hsid, recs, hrecs, ht, hht, hproc⟩
    have htrip : ht.trip_id = "" := trip_id_decompress hrecs ht hht
    have hfields := processRecord_fields hproc
    have hae : a.is_express = false := by
      rw [hfields.2.2.2, htrip]
      exact isExpressTrain_empty _
    have hpe : p.is_express = a.is_express := by
      have hps : (stripOrder p).is_express = (stripOrder a).is_express :=
        congrArg TrainTime.is_express hpa
      simpa [stripOrder] using hps
    rw [hpe, hae]

/-- C10 witness: a concrete compressed dataset produces a non-empty
prediction list whose entry is not express. -/
theorem claim10_witness :
    getPredictions
        (some (decompressHistoricalData
          { names := ["N"],
            data := [("S", [{ route_id := "6", direction_id := "0",
                              name_index := 0, departure_time := 100,
                              day_type_short := "w" }])] })) [] "S" none
        DayType.WEEKDAY 50 =
      [{ route_id := "6", direction_id := "0", long_name := "N",
         time := 50, display_order := 0, trip_id := "",
         is_express := false }]
    ∧ ({ route_id := "6", direction_id := "0", long_name := "N",
         time := 50, display_order := 0, trip_id := "",
         is_express := false } : TrainTime).is_express = false := by
  constructor
  · decide
  · exact claim10_compressed_never_express.2
      { names := ["N"],
        data := [("S", [{ route_id := "6", direction_id := "0",
                          name_index := 0, departure_time := 100,
                          day_type_short := "w" }])] }
      [] "S" none DayType.WEEKDAY 50
      { route_id := "6", direction_id := "0", long_name := "N",
        time := 50, display_order := 0, trip_id := "",
        is_express := false }
      (by decide)

/-- C6 witness: the §8 scenario input instantiates the sortedness, rank and
capacity properties, the rank conjunct applied at position 0. -/
theorem claim6_witness :
    timeSorted (getPredictions (some [("S", [scenarioRecord])]) [] "S" none
      DayType.WEEKDAY 50)
    ∧ (getPredictions (some [("S", [scenarioRecord])]) [] "S" none
        DayType.WEEKDAY 50).length ≤ MAX_NUM_PREDICTIONS
    ∧ ((getPredictions (some [("S", [scenarioRecord])]) [] "S" none
        DayType.WEEKDAY 50).get ⟨0, by decide⟩).display_order = 0 := by
  have h := claim6_sorted_ranked_truncated (some [("S", [scenarioRecord])])
    [] "S" none DayType.WEEKDAY 50
  exact ⟨h.1, h.2.1, h.2.2.1 0 (by decide)⟩
